import Mathlib

set_option maxRecDepth 100000

/-!
# Verification of the `ltpa` token library

A shallow Lean embedding of `src/unnamed/part_001` (the current
implementation: LTPA1 token generation / validation with the dual-codepage
username codec and the strict/lenient expiration modes).

Modelling conventions:
* A Node.js `Buffer` is a `List Nat` whose entries are byte values (< 256).
* JavaScript numbers that hold integral values (timestamps, validity,
  grace period) are modelled as `Int`; `parseInt` results, which may be
  `NaN`, are modelled as `Option Int` with `none` for `NaN` (every
  comparison against `NaN` is `false`, mirrored by `optGT` / `optLT`).
* `Date.now()` is ambient state; every operation that reads the clock
  takes the current epoch second `now : Int` as an explicit argument.
* The module-level mutable configuration (`ltpaSecrets`, `validity`,
  `gracePeriod`, `strictExpirationValidation`) is an explicit `LtpaState`
  record threaded through the operations.
* `Buffer#toString('utf8', a, b)` feeding `parseInt` is modelled directly
  on the sliced bytes; this is exact whenever the sliced bytes are ASCII
  (theorem hypotheses record that scope).
* Node's base64 codec is modelled for well-formed base64 text (the only
  shape the library itself produces); `toString('hex')` is modelled by
  `toHexChars`.
-/

namespace Ltpa

/-- `Buffer#slice`-style extraction of the half-open byte range `[a, b)`. -/
def slice (l : List Nat) (a b : Nat) : List Nat := (l.take b).drop a

/-- `Buffer#write` / `Buffer#copy` at an offset: overwrites
`min data.length (buf.length - off)` bytes starting at `off`, leaving the
rest of the buffer unchanged (a Node write never grows the buffer). -/
def writeAt (buf : List Nat) (off : Nat) (data : List Nat) : List Nat :=
  let w := min data.length (buf.length - off)
  buf.take off ++ data.take w ++ buf.drop (off + w)

/-- Truncate to a 32-bit word. -/
def w32 (n : Nat) : Nat := n % 4294967296

/-- Rotate a 32-bit word left by `k` bits. -/
def rotl (k w : Nat) : Nat := w32 ((w <<< k) ||| (w >>> (32 - k)))

/-- Big-endian 4-byte serialization of a 32-bit word. -/
def beBytes4 (w : Nat) : List Nat :=
  [w / 16777216 % 256, w / 65536 % 256, w / 256 % 256, w % 256]

/-- Big-endian 8-byte serialization of a 64-bit length field. -/
def beBytes8 (n : Nat) : List Nat := beBytes4 (n / 4294967296) ++ beBytes4 n

/-- Merge 4 bytes (big-endian) into each 32-bit word. -/
def toWordsBE : List Nat → List Nat
  | a :: b :: c :: d :: rest => (a * 16777216 + b * 65536 + c * 256 + d) :: toWordsBE rest
  | _ => []

/-- SHA-1 padding: `0x80`, zeros to 56 mod 64, then the bit length. -/
def sha1Pad (msg : List Nat) : List Nat :=
  msg ++ 128 :: List.replicate ((119 - msg.length % 64) % 64) 0 ++ beBytes8 (8 * msg.length)

/-- SHA-1 round constant. -/
def sha1K (i : Nat) : Nat :=
  if i < 20 then 1518500249
  else if i < 40 then 1859775393
  else if i < 60 then 2400959708
  else 3395469782

/-- SHA-1 round function. -/
def sha1F (i b c d : Nat) : Nat :=
  if i < 20 then (b &&& c) ||| ((b ^^^ 4294967295) &&& d)
  else if i < 40 then b ^^^ c ^^^ d
  else if i < 60 then (b &&& c) ||| (b &&& d) ||| (c &&& d)
  else b ^^^ c ^^^ d

/-- Message-schedule expansion, keeping the schedule reversed:
prepends `k` further words `w[i] = rotl1 (w[i-3] ^ w[i-8] ^ w[i-14] ^ w[i-16])`. -/
def sha1ExpandRev (rev : List Nat) : Nat → List Nat
  | 0 => rev
  | k + 1 =>
      sha1ExpandRev
        (rotl 1 (rev.getD 2 0 ^^^ rev.getD 7 0 ^^^ rev.getD 13 0 ^^^ rev.getD 15 0) :: rev) k

/-- One SHA-1 round: state update for word `w` at round index `i`. -/
def sha1Step (st : Nat × Nat × Nat × Nat × Nat) (iw : Nat × Nat) : Nat × Nat × Nat × Nat × Nat :=
  let (a, b, c, d, e) := st
  let (i, w) := iw
  (w32 (rotl 5 a + sha1F i b c d + e + sha1K i + w), a, rotl 30 b, c, d)

/-- SHA-1 compression of one 16-word block into the running state. -/
def sha1Compress (h : Nat × Nat × Nat × Nat × Nat) (block : List Nat) :
    Nat × Nat × Nat × Nat × Nat :=
  let ws := (sha1ExpandRev block.reverse 64).reverse
  let (a, b, c, d, e) := ws.enum.foldl sha1Step h
  let (h0, h1, h2, h3, h4) := h
  (w32 (h0 + a), w32 (h1 + b), w32 (h2 + c), w32 (h3 + d), w32 (h4 + e))

/-- Fold SHA-1 compression over the padded byte stream, 64 bytes at a
time. Structural recursion on a fuel argument (one unit per block is
enough; callers pass the byte count) keeps the definition
kernel-reducible. -/
def sha1Blocks (fuel : Nat) (h : Nat × Nat × Nat × Nat × Nat) (bytes : List Nat) :
    Nat × Nat × Nat × Nat × Nat :=
  match fuel, bytes with
  | _, [] => h
  | 0, _ => h
  | f + 1, bs => sha1Blocks f (sha1Compress h (toWordsBE (bs.take 64))) (bs.drop 64)

/-- SHA-1 digest (20 bytes) of a byte list; models `createHash('sha1')`. -/
def sha1 (msg : List Nat) : List Nat :=
  let padded := sha1Pad msg
  let h := sha1Blocks padded.length (1732584193, 4023233417, 2562383102, 271733878, 3285377520)
    padded
  beBytes4 h.1 ++ beBytes4 h.2.1 ++ beBytes4 h.2.2.1 ++ beBytes4 h.2.2.2.1 ++ beBytes4 h.2.2.2.2

/-- The sixteen lowercase hex digit characters. -/
def hexDigitChar (n : Nat) : Char := (String.toList "0123456789abcdef").getD n '0'

/-- Lowercase hex rendering of a byte list, two characters per byte. -/
def toHexChars : List Nat → List Char
  | [] => []
  | b :: rest => hexDigitChar (b / 16) :: hexDigitChar (b % 16) :: toHexChars rest

/-- `Buffer#toString('hex')` as a string. -/
def hexString (bs : List Nat) : String := String.mk (toHexChars bs)

/-- Value of a hex digit character (0 for non-digits). -/
def hexCharVal (c : Char) : Nat :=
  ((String.toList "0123456789abcdef").findIdx? (fun x => x = c)).getD 0

/-- Decode pairs of hex characters back into bytes (a `'hex'` write). -/
def hexDecodeChars : List Char → List Nat
  | c1 :: c2 :: rest => (hexCharVal c1 * 16 + hexCharVal c2) :: hexDecodeChars rest
  | _ => []

/-- The standard base64 alphabet. -/
def b64Alphabet : List Char :=
  String.toList "ABCDEFGHIJKLMNOPQRSTUVWXYZabcdefghijklmnopqrstuvwxyz0123456789+/"

/-- Character for a sextet value. -/
def b64CharOf (n : Nat) : Char := b64Alphabet.getD n 'A'

/-- Sextet value of a character; `none` for characters outside the
alphabet (padding `'='` included), which the decoder skips. -/
def sextetOf? (c : Char) : Option Nat := b64Alphabet.findIdx? (fun x => x = c)

/-- Base64-encode a byte list, three bytes to four characters, padded. -/
def b64EncChunks : List Nat → List Char
  | [] => []
  | [b1] => [b64CharOf (b1 / 4), b64CharOf (b1 % 4 * 16), '=', '=']
  | [b1, b2] => [b64CharOf (b1 / 4), b64CharOf (b1 % 4 * 16 + b2 / 16), b64CharOf (b2 % 16 * 4), '=']
  | b1 :: b2 :: b3 :: rest =>
      b64CharOf (b1 / 4) :: b64CharOf (b1 % 4 * 16 + b2 / 16) ::
        b64CharOf (b2 % 16 * 4 + b3 / 64) :: b64CharOf (b3 % 64) :: b64EncChunks rest

/-- `Buffer#toString('base64')`. -/
def b64encode (bs : List Nat) : String := String.mk (b64EncChunks bs)

/-- Recombine sextets into bytes, four sextets to three bytes, with the
shorter final group producing the leftover bytes. -/
def b64DecSextets : List Nat → List Nat
  | s1 :: s2 :: s3 :: s4 :: rest =>
      (s1 * 4 + s2 / 16) :: (s2 % 16 * 16 + s3 / 4) :: (s3 % 4 * 64 + s4) :: b64DecSextets rest
  | [s1, s2, s3] => [s1 * 4 + s2 / 16, s2 % 16 * 16 + s3 / 4]
  | [s1, s2] => [s1 * 4 + s2 / 16]
  | _ => []

/-- Base64 decoding of a string (as `Buffer.alloc(size, text, 'base64')`
produces for well-formed base64 text). -/
def b64decode (s : String) : List Nat := b64DecSextets (s.toList.filterMap sextetOf?)

/-! ## Codepage tables (iconv-lite `ibm850` / `ibm852` single-byte codecs)

For byte value `b`, entry `b` of each table is the Unicode code point the
codec decodes `b` to. Both tables are bijections between the 256 byte
values and 256 distinct characters; encoding is reverse lookup, with
unmappable characters replaced by `'?'` (iconv-lite's default). -/

def cp850Codes : List Nat :=
  [0, 1, 2, 3, 4, 5, 6, 7, 8, 9, 10, 11, 12, 13, 14, 15,
    16, 17, 18, 19, 20, 21, 22, 23, 24, 25, 26, 27, 28, 29, 30, 31,
    32, 33, 34, 35, 36, 37, 38, 39, 40, 41, 42, 43, 44, 45, 46, 47,
    48, 49, 50, 51, 52, 53, 54, 55, 56, 57, 58, 59, 60, 61, 62, 63,
    64, 65, 66, 67, 68, 69, 70, 71, 72, 73, 74, 75, 76, 77, 78, 79,
    80, 81, 82, 83, 84, 85, 86, 87, 88, 89, 90, 91, 92, 93, 94, 95,
    96, 97, 98, 99, 100, 101, 102, 103, 104, 105, 106, 107, 108, 109, 110, 111,
    112, 113, 114, 115, 116, 117, 118, 119, 120, 121, 122, 123, 124, 125, 126, 127,
    199, 252, 233, 226, 228, 224, 229, 231, 234, 235, 232, 239, 238, 236, 196, 197,
    201, 230, 198, 244, 246, 242, 251, 249, 255, 214, 220, 248, 163, 216, 215, 402,
    225, 237, 243, 250, 241, 209, 170, 186, 191, 174, 172, 189, 188, 161, 171, 187,
    9617, 9618, 9619, 9474, 9508, 193, 194, 192, 169, 9571, 9553, 9559, 9565, 162, 165, 9488,
    9492, 9524, 9516, 9500, 9472, 9532, 227, 195, 9562, 9556, 9577, 9574, 9568, 9552, 9580, 164,
    240, 208, 202, 203, 200, 305, 205, 206, 207, 9496, 9484, 9608, 9604, 166, 204, 9600,
    211, 223, 212, 210, 245, 213, 181, 254, 222, 218, 219, 217, 253, 221, 175, 180,
    173, 177, 8215, 190, 182, 167, 247, 184, 176, 168, 183, 185, 179, 178, 9632, 160]

def cp852Codes : List Nat :=
  [0, 1, 2, 3, 4, 5, 6, 7, 8, 9, 10, 11, 12, 13, 14, 15,
    16, 17, 18, 19, 20, 21, 22, 23, 24, 25, 26, 27, 28, 29, 30, 31,
    32, 33, 34, 35, 36, 37, 38, 39, 40, 41, 42, 43, 44, 45, 46, 47,
    48, 49, 50, 51, 52, 53, 54, 55, 56, 57, 58, 59, 60, 61, 62, 63,
    64, 65, 66, 67, 68, 69, 70, 71, 72, 73, 74, 75, 76, 77, 78, 79,
    80, 81, 82, 83, 84, 85, 86, 87, 88, 89, 90, 91, 92, 93, 94, 95,
    96, 97, 98, 99, 100, 101, 102, 103, 104, 105, 106, 107, 108, 109, 110, 111,
    112, 113, 114, 115, 116, 117, 118, 119, 120, 121, 122, 123, 124, 125, 126, 127,
    199, 252, 233, 226, 228, 367, 263, 231, 322, 235, 336, 337, 238, 377, 196, 262,
    201, 313, 314, 244, 246, 317, 318, 346, 347, 214, 220, 356, 357, 321, 215, 269,
    225, 237, 243, 250, 260, 261, 381, 382, 280, 281, 172, 378, 268, 351, 171, 187,
    9617, 9618, 9619, 9474, 9508, 193, 194, 282, 350, 9571, 9553, 9559, 9565, 379, 380, 9488,
    9492, 9524, 9516, 9500, 9472, 9532, 258, 259, 9562, 9556, 9577, 9574, 9568, 9552, 9580, 164,
    273, 272, 270, 203, 271, 327, 205, 206, 283, 9496, 9484, 9608, 9604, 354, 366, 9600,
    211, 223, 212, 323, 324, 328, 352, 353, 340, 218, 341, 368, 253, 221, 355, 180,
    173, 733, 731, 711, 728, 167, 247, 184, 176, 168, 729, 369, 344, 345, 9632, 160]

/-- Decode table of codepage 850 as characters. -/
def cp850Table : List Char := cp850Codes.map Char.ofNat

/-- Decode table of codepage 852 as characters. -/
def cp852Table : List Char := cp852Codes.map Char.ofNat

/-- `iconv.decode` of one byte under `ibm850`. -/
def cp850Char (b : Nat) : Char := cp850Table.getD b (Char.ofNat 65533)

/-- `iconv.decode` of one byte under `ibm852`. -/
def cp852Char (b : Nat) : Char := cp852Table.getD b (Char.ofNat 65533)

/-- `iconv.encode` of one character under `ibm850` (reverse table lookup,
`'?'` = byte 63 for characters outside the table). -/
def encode850 (c : Char) : Nat := (cp850Table.findIdx? (fun x => x = c)).getD 63

/-- `iconv.encode` of one character under `ibm852`. -/
def encode852 (c : Char) : Nat := (cp852Table.findIdx? (fun x => x = c)).getD 63

/-- The curated list of codepage-852 characters, exactly the string
literal split by `''` in the source. -/
def ibm852Chars : List Char :=
  String.toList "ÇüéâäůćçłëŐőîŹÄĆÉĹĺôöĽľŚśÖÜŤťŁčáíóúĄąŽžĘę¬źČşÁÂĚŞŻżĂăđĐĎËďŇÍÎěŢŮÓßÔŃńňŠšŔÚŕŰýÝţűŘř"

/-- The escape marker `Buffer.from([0x06])`. -/
def buf852 : List Nat := [6]

/-- `generateUserNameBuf`: encode each character, with the `0x06` escape
plus the ibm852 byte for curated characters and the plain ibm850 byte
otherwise. -/
def generateUserNameBuf (username : String) : List Nat :=
  username.toList.foldl
    (fun acc char =>
      if ibm852Chars.contains char then acc ++ buf852 ++ [encode852 char]
      else acc ++ [encode850 char])
    []

/-- The byte-consuming loop of `getUserName`: an `0x06` byte makes the
decoder read the following byte through ibm852 and advance two
positions (an escape at the very end decodes the empty slice, adding
nothing); any other byte decodes through ibm850. -/
def decodeUserName : List Nat → List Char
  | [] => []
  | b :: rest =>
    if b = 6 then
      match rest with
      | [] => []
      | b2 :: rest2 => cp852Char b2 :: decodeUserName rest2
    else cp850Char b :: decodeUserName rest

/-- The module-level mutable variables of the source file. -/
structure LtpaState where
  ltpaSecrets : List (String × String)
  validity : Int
  gracePeriod : Int
  strictExpirationValidation : Bool
deriving DecidableEq, Repr

/-- `ltpaSecrets[domain]`: association-list lookup, `none` for `undefined`. -/
def lookupSecret (st : LtpaState) (domain : String) : Option String :=
  (st.ltpaSecrets.find? (fun p => p.1 == domain)).map (fun p => p.2)

/-- `setValidity`, as a state transformer. -/
def setValidity (st : LtpaState) (seconds : Int) : LtpaState :=
  { st with validity := seconds }

/-- `setGracePeriod`, as a state transformer. -/
def setGracePeriod (st : LtpaState) (seconds : Int) : LtpaState :=
  { st with gracePeriod := seconds }

/-- `setStrictExpirationValidation`, as a state transformer. -/
def setStrictExpirationValidation (st : LtpaState) (strict : Bool) : LtpaState :=
  { st with strictExpirationValidation := strict }

/-- `setSecrets`, as a state transformer (replaces the whole table). -/
def setSecrets (st : LtpaState) (secrets : List (String × String)) : LtpaState :=
  { st with ltpaSecrets := secrets }

/-- Lowercase hex rendering of a natural number, fuel-driven so that it
stays kernel-reducible (`fuel` bounds the digit count). -/
def natToHexAux : Nat → Nat → List Char
  | 0, _ => []
  | fuel + 1, n => if n = 0 then [] else natToHexAux fuel (n / 16) ++ [hexDigitChar (n % 16)]

/-- `Number.prototype.toString(16)` for a natural number. -/
def natToHex (n : Nat) : List Char :=
  if n = 0 then ['0'] else natToHexAux (n + 1) n

/-- `Number.prototype.toString(16)` for an integral JavaScript number:
a leading `'-'` and the hex digits of the absolute value. -/
def intToHex : Int → List Char
  | Int.ofNat n => natToHex n
  | Int.negSucc m => '-' :: natToHex (m + 1)

/-- The ASCII whitespace bytes `parseInt` skips. -/
def isJsSpace (b : Nat) : Bool :=
  b == 9 || b == 10 || b == 11 || b == 12 || b == 13 || b == 32

/-- ASCII hex-digit bytes. -/
def isHexDigit (b : Nat) : Bool :=
  (48 ≤ b && b ≤ 57) || (97 ≤ b && b ≤ 102) || (65 ≤ b && b ≤ 70)

/-- Numeric value of an ASCII hex-digit byte. -/
def hexDigitVal (b : Nat) : Nat :=
  if b ≤ 57 then b - 48 else if b ≤ 70 then b - 55 else b - 87

/-- `parseInt(text, 16)` over ASCII bytes: skip whitespace, optional
sign, optional `0x`/`0X`, then the longest run of hex digits; `none`
models `NaN` (no digits). Exact for ASCII byte slices, which is the
scope the validation theorems use. -/
def parseIntHex (bs : List Nat) : Option Int :=
  let t1 := bs.dropWhile isJsSpace
  let signed : Int × List Nat :=
    match t1 with
    | 43 :: r => (1, r)
    | 45 :: r => (-1, r)
    | r => (1, r)
  let t2 :=
    match signed.2 with
    | 48 :: 120 :: r => r
    | 48 :: 88 :: r => r
    | r => r
  let digits := t2.takeWhile isHexDigit
  if digits = [] then none
  else some (signed.1 * Int.ofNat (digits.foldl (fun acc b => acc * 16 + hexDigitVal b) 0))

/-- `NaN`-aware strict greater-than: `a > b` is `false` when `a` is `NaN`. -/
def optGT (a : Option Int) (b : Int) : Bool :=
  match a with
  | some x => decide (b < x)
  | none => false

/-- `NaN`-aware strict less-than: `a < b` is `false` when `a` is `NaN`. -/
def optLT (a : Option Int) (b : Int) : Bool :=
  match a with
  | some x => decide (x < b)
  | none => false

/-- `timeStart ? timeStart : Math.floor(Date.now() / 1000)`: a present
but zero `timeStart` is falsy, so it selects `now` exactly like an
absent argument. -/
def startOf (timeStart : Option Int) (now : Int) : Int :=
  match timeStart with
  | some t => if t = 0 then now else t
  | none => now

/-- The buffer-building body of `generate`, after the server secret has
been resolved: allocate `username + 40` zero bytes, write the magic, the
two hex timestamps, the username and the decoded secret, hash, overwrite
the secret with the fixed paranoia bytes, then write the hex digest into
the trailing 20 bytes. -/
def generateCore (st : LtpaState) (userNameBuf : List Nat) (serverSecret : String)
    (start : Int) : List Nat :=
  let timeCreation := intToHex (start - st.gracePeriod)
  let timeExpiration := intToHex (start + st.validity + st.gracePeriod)
  let size := userNameBuf.length + 40
  let b0 := List.replicate size 0
  let b1 := writeAt b0 0 [0, 1, 2, 3]
  let b2 := writeAt b1 4 (timeCreation.map Char.toNat)
  let b3 := writeAt b2 12 (timeExpiration.map Char.toNat)
  let b4 := writeAt b3 20 userNameBuf
  let b5 := writeAt b4 (size - 20) ((b64decode serverSecret).take 20)
  let hash := sha1 b5
  let b6 := writeAt b5 (size - 20) (((String.toList "0123456789abcdefghij").map Char.toNat).take 20)
  let b7 := writeAt b6 (size - 20) ((hexDecodeChars (toHexChars hash)).take 20)
  b7

/-- `generate(userNameBuf, domain, timeStart?)`. An unregistered domain
makes the source throw (`Buffer#write` rejects `undefined`), modelled as
`none`; otherwise the base64 text of the finished buffer. -/
def generate (st : LtpaState) (userNameBuf : List Nat) (domain : String)
    (timeStart : Option Int) (now : Int) : Option String :=
  (lookupSecret st domain).map fun serverSecret =>
    b64encode (generateCore st userNameBuf serverSecret (startOf timeStart now))

/-- The distinct failures of `validate`, one per thrown message. -/
inductive LtpaError where
  /-- "No token provided" -/
  | noToken
  /-- "No domain provided" -/
  | noDomain
  /-- "No such server secret exists" -/
  | noSecret
  /-- "Ltpa Token too short" -/
  | tooShort
  /-- "Ltpa Token not yet valid" -/
  | notYetValid
  /-- "Ltpa Token has expired" -/
  | expired
  /-- "Incorrect magic string" -/
  | badMagic
  /-- "Ltpa Token signature doesn't validate" -/
  | badSignature
deriving DecidableEq, Repr

/-- The body of `validate` from the length check on, operating on the
decoded token bytes. -/
def validateBytes (st : LtpaState) (serverSecret : String) (ltpaToken : List Nat)
    (now : Int) : Except LtpaError Unit :=
  if ltpaToken.length < 41 then .error .tooShort
  else
    let timeCreation := parseIntHex (slice ltpaToken 4 12)
    let timeExpiration := parseIntHex (slice ltpaToken 12 20)
    if optGT (timeCreation.map (fun t => t - st.gracePeriod)) now then .error .notYetValid
    else
      let exp :=
        if st.strictExpirationValidation then timeExpiration
        else timeCreation.map (fun t => t + st.validity + st.gracePeriod * 2)
      if optLT exp now then .error .expired
      else if hexString (slice ltpaToken 0 4) ≠ "00010203" then .error .badMagic
      else
        let signature := hexString (slice ltpaToken (ltpaToken.length - 20) ltpaToken.length)
        let spliced := writeAt ltpaToken (ltpaToken.length - 20) ((b64decode serverSecret).take 20)
        if hexString (sha1 spliced) ≠ signature then .error .badSignature
        else .ok ()

/-- `validate(token, domain)`: the in-data checks, the secret lookup
(`undefined` and the empty string are both falsy), then the decoded-token
checks of `validateBytes`. -/
def validate (st : LtpaState) (token domain : String) (now : Int) : Except LtpaError Unit :=
  if token.length = 0 then .error .noToken
  else if domain.length = 0 then .error .noDomain
  else
    match lookupSecret st domain with
    | none => .error .noSecret
    | some serverSecret =>
      if serverSecret.length = 0 then .error .noSecret
      else validateBytes st serverSecret (b64decode token) now

/-- State-passing form of `validate`: the source body reads the module
variables but contains no assignment to any of them, so the outgoing
state is the incoming one. -/
def validateST (st : LtpaState) (token domain : String) (now : Int) :
    Except LtpaError Unit × LtpaState :=
  (validate st token domain now, st)

/-- `getUserNameBuf`: decode and return bytes `20 .. length - 20`; no
check of any kind (`subarray` clamps, so anything 40 bytes or shorter
yields the empty buffer). -/
def getUserNameBuf (token : String) : List Nat :=
  let ltpaToken := b64decode token
  slice ltpaToken 20 (ltpaToken.length - 20)

/-- `getUserName`: the escape-aware decoding of `getUserNameBuf`. -/
def getUserName (token : String) : String :=
  String.mk (decodeUserName (getUserNameBuf token))

/-- Zero-pad a written timestamp field to its 8 reserved bytes. -/
def pad8 (xs : List Nat) : List Nat := xs ++ List.replicate (8 - xs.length) 0

/-- The 20 header bytes of a generated token: magic then the two
hex-text timestamp fields. -/
def tokenHeader (st : LtpaState) (start : Int) : List Nat :=
  [0, 1, 2, 3] ++ pad8 ((intToHex (start - st.gracePeriod)).map Char.toNat) ++
    pad8 ((intToHex (start + st.validity + st.gracePeriod)).map Char.toNat)

/-- The trailing 20 bytes of the buffer that gets hashed: the decoded
secret (capped at 20 bytes) over the fresh buffer's zeros. -/
def secretPad (serverSecret : String) : List Nat :=
  (b64decode serverSecret).take 20 ++
    List.replicate (20 - ((b64decode serverSecret).take 20).length) 0

/-- The bytes one character contributes to `generateUserNameBuf`. -/
def encCharBytes (c : Char) : List Nat :=
  if ibm852Chars.contains c then [6, encode852 c] else [encode850 c]

/-- The characters the username codec can round-trip: the curated ibm852
list, or an ibm850-table character other than the escape `U+0006`. -/
def usernameScope (c : Char) : Prop :=
  c ∈ ibm852Chars ∨ (c ∈ cp850Table ∧ c ≠ Char.ofNat 6)

instance (c : Char) : Decidable (usernameScope c) :=
  inferInstanceAs (Decidable (_ ∨ _))

/-- UTF-8 bytes of ASCII text. -/
def asciiBytes (s : String) : List Nat := s.toList.map Char.toNat

/-- The secret table of the repository's test suite. -/
def exampleSecrets : List (String × String) :=
  [("example.com", "AAECAwQFBgcICQoLDA0ODxAREhM="),
   ("invalid.example.com", "AAABAQICAwMEBAUFBgYHBwgICQk=")]

/-- Default configuration (validity 5400, grace 300, lenient) with the
test secrets installed. -/
def defaultState : LtpaState := ⟨exampleSecrets, 5400, 300, false⟩

/-- Refinement reference for the claimed check order, following the
spec's wording: the creation-time check as a standalone step. -/
def specCheckCreation (st : LtpaState) (tok : List Nat) (now : Int) : Except LtpaError Unit :=
  if optGT ((parseIntHex (slice tok 4 12)).map (fun t => t - st.gracePeriod)) now then
    .error .notYetValid
  else .ok ()

/-- Refinement reference: the expiration check as a standalone step. -/
def specCheckExpiration (st : LtpaState) (tok : List Nat) (now : Int) : Except LtpaError Unit :=
  if optLT (if st.strictExpirationValidation then parseIntHex (slice tok 12 20)
      else (parseIntHex (slice tok 4 12)).map (fun t => t + st.validity + st.gracePeriod * 2))
      now then
    .error .expired
  else .ok ()

/-- Refinement reference: the version (magic) check as a standalone step. -/
def specCheckVersion (tok : List Nat) : Except LtpaError Unit :=
  if hexString (slice tok 0 4) ≠ "00010203" then .error .badMagic else .ok ()

/-- Refinement reference: the signature check as a standalone step. -/
def specCheckSignature (serverSecret : String) (tok : List Nat) : Except LtpaError Unit :=
  if hexString (sha1 (writeAt tok (tok.length - 20) ((b64decode serverSecret).take 20))) ≠
      hexString (slice tok (tok.length - 20) tok.length) then
    .error .badSignature
  else .ok ()

/-- Refinement reference for C6, built from the spec's words: input
checks, lookup, length check, then creation, expiration, version and
signature checks run in exactly that order. -/
def validateSpecOrder (st : LtpaState) (token domain : String) (now : Int) :
    Except LtpaError Unit :=
  if token.length = 0 then .error .noToken
  else if domain.length = 0 then .error .noDomain
  else
    match lookupSecret st domain with
    | none => .error .noSecret
    | some serverSecret =>
      if serverSecret.length = 0 then .error .noSecret
      else
        let tok := b64decode token
        if tok.length < 41 then .error .tooShort
        else do
          specCheckCreation st tok now
          specCheckExpiration st tok now
          specCheckVersion tok
          specCheckSignature serverSecret tok

/-- Refinement reference for C8, built from the claim's words: a
username accessor that fails with the Format error ("token too short")
on decoded length below 41, as the claim says `parse` does. -/
def getUserNameBufSpec (token : String) : Except LtpaError (List Nat) :=
  if (b64decode token).length < 41 then .error .tooShort
  else .ok (slice (b64decode token) 20 ((b64decode token).length - 20))

/-- The test username's encoded bytes. -/
def userNameBufExample : List Nat := generateUserNameBuf "My Test User"

/-- A 41-byte token whose creation field reads `ffffffff` and whose
stored expiration field reads `00000000`. -/
def tokNotYet : List Nat :=
  [0, 1, 2, 3] ++ asciiBytes "ffffffff" ++ asciiBytes "00000000" ++ [65] ++ List.replicate 20 0

/-- A token generated with validity 3600 at epoch 1699994600: its stored
expiration (1699998500) is in the past of `now = 1700000000`, while the
lenient window recomputed with validity 5400 is not. -/
def tokStrictDemo : List Nat :=
  generateCore ⟨exampleSecrets, 3600, 300, false⟩ userNameBufExample
    "AAECAwQFBgcICQoLDA0ODxAREhM=" 1699994600

/-- A token signed with the `invalid.example.com` secret at start 12:
validated against `example.com` at `now = 1234567890` it is both far
expired and signature-invalid. -/
def tokExpiredForged : List Nat :=
  generateCore defaultState userNameBufExample "AAABAQICAwMEBAUFBgYHBwgICQk=" 12

instance {ε α : Type} [DecidableEq ε] [DecidableEq α] : DecidableEq (Except ε α) := fun a b =>
  match a, b with
  | .ok x, .ok y =>
    if h : x = y then isTrue (by rw [h]) else isFalse (by intro hx; cases hx; exact h rfl)
  | .error x, .error y =>
    if h : x = y then isTrue (by rw [h]) else isFalse (by intro hx; cases hx; exact h rfl)
  | .ok _, .error _ => isFalse (by intro h; cases h)
  | .error _, .ok _ => isFalse (by intro h; cases h)

/-- A 41-byte token with creation field `499601a6` and stored expiration
`49961916`, used to witness the boundary theorems. -/
def tokBoundary : List Nat :=
  [0, 1, 2, 3] ++ asciiBytes "499601a6" ++ asciiBytes "49961916" ++ [77] ++ List.replicate 20 0

/-! ## Supporting lemmas, then one theorem per claim (with witnesses
and counterexamples) -/

theorem length_writeAt (buf : List Nat) (off : Nat) (data : List Nat) :
    (writeAt buf off data).length = buf.length := by
  simp only [writeAt, List.length_append, List.length_take, List.length_drop]
  omega

theorem writeAt_of_le (buf : List Nat) (off : Nat) (data : List Nat)
    (h : off + data.length ≤ buf.length) :
    writeAt buf off data = buf.take off ++ data ++ buf.drop (off + data.length) := by
  have hm : min data.length (buf.length - off) = data.length := by omega
  simp only [writeAt, hm, List.take_length]

theorem writeAt_suffix (buf : List Nat) (off : Nat) (data : List Nat)
    (h : off + data.length = buf.length) :
    writeAt buf off data = buf.take off ++ data := by
  rw [writeAt_of_le buf off data (le_of_eq h), h, List.drop_length, List.append_nil]

theorem writeAt_pre_replicate (pre : List Nat) (k off : Nat) (data : List Nat)
    (h1 : pre.length ≤ off) (h2 : off + data.length ≤ pre.length + k) :
    writeAt (pre ++ List.replicate k 0) off data =
      pre ++ List.replicate (off - pre.length) 0 ++ data ++
        List.replicate (pre.length + k - off - data.length) 0 := by
  rw [writeAt_of_le _ _ _ (by simp [List.length_replicate]; omega)]
  rw [List.take_append_eq_append_take, List.take_of_length_le h1, List.take_replicate]
  rw [List.drop_append_eq_append_drop, List.drop_eq_nil_of_le (by omega), List.drop_replicate]
  have : min (off - pre.length) k = off - pre.length := by omega
  rw [this]
  have : k - (off + data.length - pre.length) = pre.length + k - off - data.length := by omega
  simp [this]

theorem slice_middle (pre mid post : List Nat) (a b : Nat)
    (ha : pre.length = a) (hb : a + mid.length = b) :
    slice (pre ++ mid ++ post) a b = mid := by
  subst ha; subst hb
  simp only [slice, List.append_assoc]
  rw [List.take_append_eq_append_take, List.take_of_length_le (Nat.le_add_right _ _),
    Nat.add_sub_cancel_left, List.take_left, List.drop_left]

theorem sha1_length (msg : List Nat) : (sha1 msg).length = 20 := by
  simp [sha1, beBytes4]

theorem mem_beBytes4_lt {b w : Nat} (h : b ∈ beBytes4 w) : b < 256 := by
  simp only [beBytes4, List.mem_cons, List.not_mem_nil, or_false] at h
  rcases h with rfl | rfl | rfl | rfl <;> exact Nat.mod_lt _ (by omega)

theorem sha1_lt (msg : List Nat) : ∀ b ∈ sha1 msg, b < 256 := by
  intro b hb
  simp only [sha1, List.mem_append] at hb
  rcases hb with ((((hb | hb) | hb) | hb) | hb) <;> exact mem_beBytes4_lt hb

theorem findIdx?_of_mem {c : Char} {l : List Char} (h : c ∈ l) :
    ∃ i, l.findIdx? (fun x => x = c) = some i ∧ i < l.length ∧ ∀ d, l.getD i d = c := by
  induction l with
  | nil => cases h
  | cons a l ih =>
    by_cases hac : a = c
    · refine ⟨0, ?_, by simp, fun d => by simpa using hac⟩
      simp [List.findIdx?_cons, hac]
    · rcases List.mem_cons.mp h with h | h
      · exact absurd h.symm hac
      · obtain ⟨i, hi, hlt, hget⟩ := ih h
        refine ⟨i + 1, ?_, by simpa using hlt, fun d => by simpa using hget d⟩
        simp [List.findIdx?_cons, hac, List.findIdx?_succ, hi]

theorem findIdx?_lt_length {p : Char → Bool} {l : List Char} {i : Nat}
    (h : l.findIdx? p = some i) : i < l.length :=
  (List.findIdx?_eq_some_iff_findIdx_eq.mp h).1

theorem hexCharVal_hexDigitChar : ∀ n < 16, hexCharVal (hexDigitChar n) = n := by decide

theorem hexDecode_toHex (bs : List Nat) (h : ∀ b ∈ bs, b < 256) :
    hexDecodeChars (toHexChars bs) = bs := by
  induction bs with
  | nil => rfl
  | cons b rest ih =>
    have hb : b < 256 := h b (by simp)
    simp only [toHexChars, hexDecodeChars]
    rw [hexCharVal_hexDigitChar (b / 16) (by omega), hexCharVal_hexDigitChar (b % 16) (by omega),
      ih (fun x hx => h x (by simp [hx]))]
    have e : b / 16 * 16 + b % 16 = b := by omega
    rw [e]

theorem toHexChars_inj {as bs : List Nat} (ha : ∀ b ∈ as, b < 256) (hb : ∀ b ∈ bs, b < 256)
    (h : toHexChars as = toHexChars bs) : as = bs := by
  rw [← hexDecode_toHex as ha, ← hexDecode_toHex bs hb, h]

theorem hexString_eq_iff {as bs : List Nat} (ha : ∀ b ∈ as, b < 256) (hb : ∀ b ∈ bs, b < 256) :
    hexString as = hexString bs ↔ as = bs := by
  constructor
  · intro h
    exact toHexChars_inj ha hb (congrArg String.data h)
  · intro h; rw [h]

theorem sextetOf_b64CharOf : ∀ n < 64, sextetOf? (b64CharOf n) = some n := by decide

theorem sextetOf_pad : sextetOf? '=' = none := by decide

theorem toList_mk (l : List Char) : (String.mk l).toList = l := rfl

theorem b64_roundtrip : ∀ bs : List Nat, (∀ b ∈ bs, b < 256) → b64decode (b64encode bs) = bs
  | [], _ => rfl
  | [b1], h => by
    have hb1 : b1 < 256 := h b1 (by simp)
    simp only [b64decode, b64encode, b64EncChunks, toList_mk, List.filterMap_cons]
    rw [sextetOf_b64CharOf (b1 / 4) (by omega), sextetOf_b64CharOf (b1 % 4 * 16) (by omega),
      sextetOf_pad]
    simp only [List.filterMap_nil, b64DecSextets]
    have e1 : b1 / 4 * 4 + b1 % 4 * 16 / 16 = b1 := by omega
    rw [e1]
  | [b1, b2], h => by
    have hb1 : b1 < 256 := h b1 (by simp)
    have hb2 : b2 < 256 := h b2 (by simp)
    simp only [b64decode, b64encode, b64EncChunks, toList_mk, List.filterMap_cons]
    rw [sextetOf_b64CharOf (b1 / 4) (by omega),
      sextetOf_b64CharOf (b1 % 4 * 16 + b2 / 16) (by omega),
      sextetOf_b64CharOf (b2 % 16 * 4) (by omega), sextetOf_pad]
    simp only [List.filterMap_nil, b64DecSextets]
    have e1 : b1 / 4 * 4 + (b1 % 4 * 16 + b2 / 16) / 16 = b1 := by omega
    have e2 : (b1 % 4 * 16 + b2 / 16) % 16 * 16 + b2 % 16 * 4 / 4 = b2 := by omega
    rw [e1, e2]
  | b1 :: b2 :: b3 :: rest, h => by
    have hb1 : b1 < 256 := h b1 (by simp)
    have hb2 : b2 < 256 := h b2 (by simp)
    have hb3 : b3 < 256 := h b3 (by simp)
    have ih := b64_roundtrip rest (fun x hx => h x (by simp [hx]))
    simp only [b64decode, b64encode, b64EncChunks, toList_mk, List.filterMap_cons] at ih ⊢
    rw [sextetOf_b64CharOf (b1 / 4) (by omega),
      sextetOf_b64CharOf (b1 % 4 * 16 + b2 / 16) (by omega),
      sextetOf_b64CharOf (b2 % 16 * 4 + b3 / 64) (by omega),
      sextetOf_b64CharOf (b3 % 64) (by omega)]
    simp only [b64DecSextets]
    rw [ih]
    have e1 : b1 / 4 * 4 + (b1 % 4 * 16 + b2 / 16) / 16 = b1 := by omega
    have e2 : (b1 % 4 * 16 + b2 / 16) % 16 * 16 + (b2 % 16 * 4 + b3 / 64) / 4 = b2 := by omega
    have e3 : (b2 % 16 * 4 + b3 / 64) % 4 * 64 + b3 % 64 = b3 := by omega
    rw [e1, e2, e3]

theorem mem_writeAt {buf data : List Nat} {off : Nat}
    (hbuf : ∀ b ∈ buf, b < 256) (hdata : ∀ b ∈ data, b < 256) :
    ∀ b ∈ writeAt buf off data, b < 256 := by
  intro b hb
  simp only [writeAt, List.mem_append] at hb
  rcases hb with (hb | hb) | hb
  · exact hbuf b (List.take_subset _ _ hb)
  · exact hdata b (List.take_subset _ _ hb)
  · exact hbuf b (List.drop_subset _ _ hb)

theorem hexDigitChar_toNat_lt (n : Nat) : (hexDigitChar n).toNat < 128 := by
  by_cases h : n < 16
  · interval_cases n <;> decide
  · rw [hexDigitChar, List.getD_eq_default]
    · decide
    · simpa using by omega

theorem natToHexAux_toNat_lt (fuel : Nat) : ∀ n, ∀ c ∈ natToHexAux fuel n, c.toNat < 128 := by
  induction fuel with
  | zero => intro n c hc; simp [natToHexAux] at hc
  | succ f ih =>
    intro n c hc
    simp only [natToHexAux] at hc
    split at hc
    · simp at hc
    · rcases List.mem_append.mp hc with hc | hc
      · exact ih _ c hc
      · rw [List.mem_singleton.mp hc]; exact hexDigitChar_toNat_lt _

theorem intToHex_toNat_lt (x : Int) : ∀ c ∈ intToHex x, c.toNat < 128 := by
  have hn : ∀ n : Nat, ∀ c ∈ natToHex n, c.toNat < 128 := by
    intro n c hc
    simp only [natToHex] at hc
    split at hc
    · rw [List.mem_singleton.mp hc]; decide
    · exact natToHexAux_toNat_lt _ _ c hc
  cases x with
  | ofNat n => exact hn n
  | negSucc m =>
    intro c hc
    rcases List.mem_cons.mp hc with rfl | hc
    · decide
    · exact hn _ c hc

theorem sextetOf?_lt {c : Char} {i : Nat} (h : sextetOf? c = some i) : i < 64 := by
  have := findIdx?_lt_length h
  simpa using this

theorem b64DecSextets_lt : ∀ l : List Nat, (∀ s ∈ l, s < 64) → ∀ b ∈ b64DecSextets l, b < 256
  | [], _ => by simp [b64DecSextets]
  | [s1], _ => by simp [b64DecSextets]
  | [s1, s2], h => by
    have h1 := h s1 (by simp)
    have h2 := h s2 (by simp)
    intro b hb
    rw [List.mem_singleton.mp hb]
    omega
  | [s1, s2, s3], h => by
    have h1 := h s1 (by simp)
    have h2 := h s2 (by simp)
    have h3 := h s3 (by simp)
    intro b hb
    rcases List.mem_cons.mp hb with rfl | hb
    · omega
    · rw [List.mem_singleton.mp hb]; omega
  | s1 :: s2 :: s3 :: s4 :: rest, h => by
    have h1 := h s1 (by simp)
    have h2 := h s2 (by simp)
    have h3 := h s3 (by simp)
    have h4 := h s4 (by simp)
    intro b hb
    rcases List.mem_cons.mp hb with rfl | hb
    · omega
    rcases List.mem_cons.mp hb with rfl | hb
    · omega
    rcases List.mem_cons.mp hb with rfl | hb
    · omega
    exact b64DecSextets_lt rest (fun s hs => h s (by simp [hs])) b hb

theorem b64decode_lt (s : String) : ∀ b ∈ b64decode s, b < 256 := by
  apply b64DecSextets_lt
  intro x hx
  obtain ⟨c, _, hc⟩ := List.mem_filterMap.mp hx
  exact sextetOf?_lt hc

theorem hexCharVal_lt (c : Char) : hexCharVal c < 16 := by
  rw [hexCharVal]
  cases h : (String.toList "0123456789abcdef").findIdx? (fun x => x = c) with
  | none => simp
  | some i =>
    have := findIdx?_lt_length h
    simpa using this

theorem hexDecodeChars_lt : ∀ l : List Char, ∀ b ∈ hexDecodeChars l, b < 256
  | [] => by simp [hexDecodeChars]
  | [c1] => by simp [hexDecodeChars]
  | c1 :: c2 :: rest => by
    intro b hb
    rcases List.mem_cons.mp hb with rfl | hb
    · have g1 := hexCharVal_lt c1
      have g2 := hexCharVal_lt c2
      omega
    · exact hexDecodeChars_lt rest b hb

theorem generateCore_length (st : LtpaState) (u : List Nat) (sec : String) (start : Int) :
    (generateCore st u sec start).length = u.length + 40 := by
  simp [generateCore, length_writeAt]

theorem generateCore_lt (st : LtpaState) (u : List Nat) (sec : String) (start : Int)
    (hu : ∀ b ∈ u, b < 256) : ∀ b ∈ generateCore st u sec start, b < 256 := by
  have hrep : ∀ b ∈ List.replicate (u.length + 40) 0, b < 256 := by
    intro b hb; rw [List.eq_of_mem_replicate hb]; omega
  have hmagic : ∀ b ∈ ([0, 1, 2, 3] : List Nat), b < 256 := by decide
  have htc : ∀ b ∈ (intToHex (start - st.gracePeriod)).map Char.toNat, b < 256 := by
    intro b hb
    obtain ⟨c, hc, rfl⟩ := List.mem_map.mp hb
    have := intToHex_toNat_lt _ c hc
    omega
  have hte : ∀ b ∈ (intToHex (start + st.validity + st.gracePeriod)).map Char.toNat, b < 256 := by
    intro b hb
    obtain ⟨c, hc, rfl⟩ := List.mem_map.mp hb
    have := intToHex_toNat_lt _ c hc
    omega
  have hsec : ∀ b ∈ (b64decode sec).take 20, b < 256 :=
    fun b hb => b64decode_lt sec b (List.take_subset _ _ hb)
  have hpar : ∀ b ∈ (((String.toList "0123456789abcdefghij").map Char.toNat).take 20), b < 256 := by
    decide
  have hhex : ∀ b ∈ (hexDecodeChars (toHexChars (sha1 (writeAt
      (writeAt (writeAt (writeAt (writeAt (List.replicate (u.length + 40) 0) 0 [0, 1, 2, 3]) 4
        ((intToHex (start - st.gracePeriod)).map Char.toNat)) 12
        ((intToHex (start + st.validity + st.gracePeriod)).map Char.toNat)) 20 u)
        (u.length + 40 - 20) ((b64decode sec).take 20))))).take 20, b < 256 :=
    fun b hb => hexDecodeChars_lt _ b (List.take_subset _ _ hb)
  simp only [generateCore]
  exact mem_writeAt (mem_writeAt (mem_writeAt (mem_writeAt (mem_writeAt (mem_writeAt
    (mem_writeAt hrep hmagic) htc) hte) hu) hsec) hpar) hhex

theorem tokenHeader_length (st : LtpaState) (start : Int)
    (h1 : (intToHex (start - st.gracePeriod)).length ≤ 8)
    (h2 : (intToHex (start + st.validity + st.gracePeriod)).length ≤ 8) :
    (tokenHeader st start).length = 20 := by
  simp [tokenHeader, pad8, List.length_replicate]
  omega

theorem writeAt_split (buf pre : List Nat) (k off : Nat) (data : List Nat) (r1 r2 : Nat)
    (hbuf : buf = pre ++ List.replicate k 0)
    (h1 : pre.length + r1 = off) (h2 : off + data.length + r2 = pre.length + k) :
    writeAt buf off data =
      pre ++ List.replicate r1 0 ++ data ++ List.replicate r2 0 := by
  subst hbuf
  have h := writeAt_pre_replicate pre k off data (by omega) (by omega)
  rw [h, show off - pre.length = r1 from by omega,
    show pre.length + k - off - data.length = r2 from by omega]

theorem writeAt_full_suffix (buf pre : List Nat) (off : Nat) (old data : List Nat)
    (hbuf : buf = pre ++ old) (h1 : pre.length = off) (h2 : old.length = data.length) :
    writeAt buf off data = pre ++ data := by
  subst hbuf
  subst h1
  rw [writeAt_suffix _ _ _ (by simp; omega), List.take_left]

theorem generateCore_eq (st : LtpaState) (u : List Nat) (sec : String) (start : Int)
    (h1 : (intToHex (start - st.gracePeriod)).length ≤ 8)
    (h2 : (intToHex (start + st.validity + st.gracePeriod)).length ≤ 8) :
    generateCore st u sec start =
      tokenHeader st start ++ u ++ sha1 (tokenHeader st start ++ u ++ secretPad sec) := by
  simp only [generateCore]
  set tcB := (intToHex (start - st.gracePeriod)).map Char.toNat with htcB
  set teB := (intToHex (start + st.validity + st.gracePeriod)).map Char.toNat with hteB
  set stake := (b64decode sec).take 20 with hstake
  have l1 : tcB.length ≤ 8 := by rw [htcB, List.length_map]; exact h1
  have l2 : teB.length ≤ 8 := by rw [hteB, List.length_map]; exact h2
  have lsk : stake.length ≤ 20 := by rw [hstake]; simp
  have s1 : writeAt (List.replicate (u.length + 40) 0) 0 [0, 1, 2, 3] =
      [0, 1, 2, 3] ++ List.replicate (u.length + 36) 0 := by
    have := writeAt_split (List.replicate (u.length + 40) 0) [] (u.length + 40) 0
      [0, 1, 2, 3] 0 (u.length + 36) (by simp) (by simp only [List.length_append, List.length_cons, List.length_nil, List.length_replicate, List.length_take, List.length_map] <;> omega) (by simp only [List.length_append, List.length_cons, List.length_nil, List.length_replicate, List.length_take, List.length_map] <;> omega)
    simpa using this
  have s2 : writeAt ([0, 1, 2, 3] ++ List.replicate (u.length + 36) 0) 4 tcB =
      [0, 1, 2, 3] ++ tcB ++ List.replicate (u.length + 36 - tcB.length) 0 := by
    have := writeAt_split ([0, 1, 2, 3] ++ List.replicate (u.length + 36) 0) [0, 1, 2, 3]
      (u.length + 36) 4 tcB 0 (u.length + 36 - tcB.length) rfl (by simp only [List.length_append, List.length_cons, List.length_nil, List.length_replicate, List.length_take, List.length_map] <;> omega) (by simp only [List.length_append, List.length_cons, List.length_nil, List.length_replicate, List.length_take, List.length_map] <;> omega)
    simpa using this
  have s3 : writeAt ([0, 1, 2, 3] ++ tcB ++ List.replicate (u.length + 36 - tcB.length) 0) 12
      teB = [0, 1, 2, 3] ++ tcB ++ List.replicate (8 - tcB.length) 0 ++ teB ++
        List.replicate (u.length + 28 - teB.length) 0 := by
    have := writeAt_split ([0, 1, 2, 3] ++ tcB ++ List.replicate (u.length + 36 - tcB.length) 0)
      ([0, 1, 2, 3] ++ tcB) (u.length + 36 - tcB.length) 12 teB (8 - tcB.length)
      (u.length + 28 - teB.length) rfl (by simp only [List.length_append, List.length_cons, List.length_nil, List.length_replicate, List.length_take, List.length_map] <;> omega) (by simp only [List.length_append, List.length_cons, List.length_nil, List.length_replicate, List.length_take, List.length_map] <;> omega)
    rw [this]
  have s4 : writeAt ([0, 1, 2, 3] ++ tcB ++ List.replicate (8 - tcB.length) 0 ++ teB ++
      List.replicate (u.length + 28 - teB.length) 0) 20 u =
      [0, 1, 2, 3] ++ tcB ++ List.replicate (8 - tcB.length) 0 ++ teB ++
        List.replicate (8 - teB.length) 0 ++ u ++ List.replicate 20 0 := by
    have := writeAt_split ([0, 1, 2, 3] ++ tcB ++ List.replicate (8 - tcB.length) 0 ++ teB ++
      List.replicate (u.length + 28 - teB.length) 0)
      ([0, 1, 2, 3] ++ tcB ++ List.replicate (8 - tcB.length) 0 ++ teB)
      (u.length + 28 - teB.length) 20 u (8 - teB.length) 20 rfl (by simp only [List.length_append, List.length_cons, List.length_nil, List.length_replicate, List.length_take, List.length_map] <;> omega)
      (by simp only [List.length_append, List.length_cons, List.length_nil, List.length_replicate, List.length_take, List.length_map] <;> omega)
    rw [this]
  have s5 : writeAt ([0, 1, 2, 3] ++ tcB ++ List.replicate (8 - tcB.length) 0 ++ teB ++
      List.replicate (8 - teB.length) 0 ++ u ++ List.replicate 20 0) (u.length + 40 - 20)
      stake =
      [0, 1, 2, 3] ++ tcB ++ List.replicate (8 - tcB.length) 0 ++ teB ++
        List.replicate (8 - teB.length) 0 ++ u ++ stake ++
        List.replicate (20 - stake.length) 0 := by
    have := writeAt_split ([0, 1, 2, 3] ++ tcB ++ List.replicate (8 - tcB.length) 0 ++ teB ++
      List.replicate (8 - teB.length) 0 ++ u ++ List.replicate 20 0)
      ([0, 1, 2, 3] ++ tcB ++ List.replicate (8 - tcB.length) 0 ++ teB ++
        List.replicate (8 - teB.length) 0 ++ u) 20 (u.length + 40 - 20) stake 0
      (20 - stake.length) rfl (by simp only [List.length_append, List.length_cons, List.length_nil, List.length_replicate, List.length_take, List.length_map] <;> omega) (by simp only [List.length_append, List.length_cons, List.length_nil, List.length_replicate, List.length_take, List.length_map] <;> omega)
    rw [this]
    simp [List.append_assoc]
  rw [s1, s2, s3, s4, s5]
  have s6 : writeAt ([0, 1, 2, 3] ++ tcB ++ List.replicate (8 - tcB.length) 0 ++ teB ++
      List.replicate (8 - teB.length) 0 ++ u ++ stake ++
      List.replicate (20 - stake.length) 0) (u.length + 40 - 20)
      (((String.toList "0123456789abcdefghij").map Char.toNat).take 20) =
      [0, 1, 2, 3] ++ tcB ++ List.replicate (8 - tcB.length) 0 ++ teB ++
        List.replicate (8 - teB.length) 0 ++ u ++
        ((String.toList "0123456789abcdefghij").map Char.toNat).take 20 := by
    have := writeAt_full_suffix ([0, 1, 2, 3] ++ tcB ++ List.replicate (8 - tcB.length) 0 ++
      teB ++ List.replicate (8 - teB.length) 0 ++ u ++ stake ++
      List.replicate (20 - stake.length) 0)
      ([0, 1, 2, 3] ++ tcB ++ List.replicate (8 - tcB.length) 0 ++ teB ++
        List.replicate (8 - teB.length) 0 ++ u) (u.length + 40 - 20)
      (stake ++ List.replicate (20 - stake.length) 0)
      (((String.toList "0123456789abcdefghij").map Char.toNat).take 20)
      (by simp [List.append_assoc]) (by simp only [List.length_append, List.length_cons, List.length_nil, List.length_replicate, List.length_take, List.length_map] <;> omega) (by
        have hp : (((String.toList "0123456789abcdefghij").map Char.toNat).take 20).length = 20 :=
          by decide
        simp only [List.length_append, List.length_replicate]
        rw [hp]
        omega)
    rw [this]
  rw [s6]
  have hsha : ∀ b ∈ sha1 ([0, 1, 2, 3] ++ tcB ++ List.replicate (8 - tcB.length) 0 ++ teB ++
      List.replicate (8 - teB.length) 0 ++ u ++ stake ++
      List.replicate (20 - stake.length) 0), b < 256 := sha1_lt _
  have s7 : writeAt ([0, 1, 2, 3] ++ tcB ++ List.replicate (8 - tcB.length) 0 ++ teB ++
      List.replicate (8 - teB.length) 0 ++ u ++
      ((String.toList "0123456789abcdefghij").map Char.toNat).take 20) (u.length + 40 - 20)
      ((hexDecodeChars (toHexChars (sha1 ([0, 1, 2, 3] ++ tcB ++
        List.replicate (8 - tcB.length) 0 ++ teB ++ List.replicate (8 - teB.length) 0 ++ u ++
        stake ++ List.replicate (20 - stake.length) 0)))).take 20) =
      [0, 1, 2, 3] ++ tcB ++ List.replicate (8 - tcB.length) 0 ++ teB ++
        List.replicate (8 - teB.length) 0 ++ u ++
        sha1 ([0, 1, 2, 3] ++ tcB ++ List.replicate (8 - tcB.length) 0 ++ teB ++
          List.replicate (8 - teB.length) 0 ++ u ++ stake ++
          List.replicate (20 - stake.length) 0) := by
    rw [hexDecode_toHex _ hsha, List.take_of_length_le (le_of_eq (sha1_length _))]
    have := writeAt_full_suffix ([0, 1, 2, 3] ++ tcB ++ List.replicate (8 - tcB.length) 0 ++
      teB ++ List.replicate (8 - teB.length) 0 ++ u ++
      ((String.toList "0123456789abcdefghij").map Char.toNat).take 20)
      ([0, 1, 2, 3] ++ tcB ++ List.replicate (8 - tcB.length) 0 ++ teB ++
        List.replicate (8 - teB.length) 0 ++ u) (u.length + 40 - 20)
      (((String.toList "0123456789abcdefghij").map Char.toNat).take 20)
      (sha1 ([0, 1, 2, 3] ++ tcB ++ List.replicate (8 - tcB.length) 0 ++ teB ++
        List.replicate (8 - teB.length) 0 ++ u ++ stake ++
        List.replicate (20 - stake.length) 0))
      rfl (by simp only [List.length_append, List.length_cons, List.length_nil, List.length_replicate, List.length_take, List.length_map] <;> omega) (by
        have hp : (((String.toList "0123456789abcdefghij").map Char.toNat).take 20).length = 20 :=
          by decide
        rw [hp, sha1_length])
    rw [this]
  rw [s7]
  simp only [tokenHeader, pad8, secretPad, ← htcB, ← hteB, ← hstake, List.append_assoc]

theorem generateUserNameBuf_eq (s : String) :
    generateUserNameBuf s = (s.toList.map encCharBytes).join := by
  rw [generateUserNameBuf]
  have aux : ∀ (l : List Char) (acc : List Nat),
      l.foldl (fun acc char =>
        if ibm852Chars.contains char then acc ++ buf852 ++ [encode852 char]
        else acc ++ [encode850 char]) acc = acc ++ (l.map encCharBytes).join := by
    intro l
    induction l with
    | nil => intro acc; simp
    | cons c rest ih =>
      intro acc
      simp only [List.foldl_cons, List.map_cons, List.join]
      by_cases hc : ibm852Chars.contains c
      · rw [if_pos hc, ih]
        have hm : c ∈ ibm852Chars := by simpa using hc
        simp [encCharBytes, hm, buf852, List.join]
      · rw [if_neg hc, ih]
        have hm : c ∉ ibm852Chars := by simpa using hc
        simp [encCharBytes, hm, List.join]
  simpa using aux s.toList []

theorem cp850Table_length : cp850Table.length = 256 := by decide

theorem cp852Table_length : cp852Table.length = 256 := by decide

theorem mem_852_table : ∀ c ∈ ibm852Chars, c ∈ cp852Table := by decide

theorem contains_iff_mem852 (c : Char) : ibm852Chars.contains c = true ↔ c ∈ ibm852Chars := by
  simp [List.contains_iff_exists_mem_beq]

theorem encode850_lt (c : Char) : encode850 c < 256 := by
  rw [encode850]
  cases h : cp850Table.findIdx? (fun x => x = c) with
  | none => simp
  | some i =>
    have := findIdx?_lt_length h
    rw [cp850Table_length] at this
    simpa using this

theorem encode852_lt (c : Char) : encode852 c < 256 := by
  rw [encode852]
  cases h : cp852Table.findIdx? (fun x => x = c) with
  | none => simp
  | some i =>
    have := findIdx?_lt_length h
    rw [cp852Table_length] at this
    simpa using this

theorem generateUserNameBuf_lt (s : String) : ∀ b ∈ generateUserNameBuf s, b < 256 := by
  rw [generateUserNameBuf_eq]
  intro b hb
  obtain ⟨l, hl, hbl⟩ := List.mem_join.mp hb
  obtain ⟨c, _, rfl⟩ := List.mem_map.mp hl
  rw [encCharBytes] at hbl
  split at hbl
  · rcases List.mem_cons.mp hbl with rfl | hbl
    · omega
    · rw [List.mem_singleton.mp hbl]
      exact encode852_lt c
  · rw [List.mem_singleton.mp hbl]
    exact encode850_lt c

theorem decodeUserName_cons_ne {b : Nat} (hb : b ≠ 6) (l : List Nat) :
    decodeUserName (b :: l) = cp850Char b :: decodeUserName l := by
  cases l <;> simp [decodeUserName, hb]

theorem decode_encChar (cs : List Char) (h : ∀ c ∈ cs, usernameScope c) :
    decodeUserName ((cs.map encCharBytes).join) = cs := by
  induction cs with
  | nil => rfl
  | cons c rest ih =>
    have hrest := ih fun x hx => h x (List.mem_cons_of_mem _ hx)
    by_cases hcont : ibm852Chars.contains c
    · have hm : c ∈ ibm852Chars := by simpa using hcont
      obtain ⟨i, hfind, hlt, hget⟩ := findIdx?_of_mem (mem_852_table c hm)
      have henc : encode852 c = i := by rw [encode852, hfind]; rfl
      have hdec : cp852Char (encode852 c) = c := by rw [cp852Char, henc]; exact hget _
      simp only [List.map_cons, List.join, encCharBytes, if_pos hcont, List.cons_append,
        List.nil_append]
      simp [decodeUserName, hdec, hrest]
    · have hm : c ∉ ibm852Chars := by simpa using hcont
      have hsc : c ∈ cp850Table ∧ c ≠ Char.ofNat 6 := by
        rcases h c (by simp) with hx | hx
        · exact absurd hx hm
        · exact hx
      obtain ⟨i, hfind, hlt, hget⟩ := findIdx?_of_mem hsc.1
      have henc : encode850 c = i := by rw [encode850, hfind]; rfl
      have hne6 : encode850 c ≠ 6 := by
        rw [henc]
        intro hi
        apply hsc.2
        have := hget (Char.ofNat 65533)
        rw [hi] at this
        rw [← this]
        decide
      have hdec : cp850Char (encode850 c) = c := by rw [cp850Char, henc]; exact hget _
      simp only [List.map_cons, List.join, List.flatten_cons, encCharBytes, if_neg hcont,
        List.cons_append, List.nil_append]
      rw [decodeUserName_cons_ne hne6, hdec, hrest]

theorem mk_toList (s : String) : String.mk s.toList = s := rfl

theorem username_roundtrip_core (s : String) (h : ∀ c ∈ s.toList, usernameScope c) :
    decodeUserName (generateUserNameBuf s) = s.toList := by
  rw [generateUserNameBuf_eq]
  exact decode_encChar _ h

theorem getUserNameBuf_of_decode {token : String} {pre mid post : List Nat}
    (htok : b64decode token = pre ++ mid ++ post)
    (hpre : pre.length = 20) (hpost : post.length = 20) :
    getUserNameBuf token = mid := by
  simp only [getUserNameBuf, htok]
  have hl : (pre ++ mid ++ post).length - 20 = 20 + mid.length := by
    simp only [List.length_append, hpre, hpost]
    omega
  rw [hl]
  exact slice_middle pre mid post 20 (20 + mid.length) hpre rfl

theorem validate_eq (st : LtpaState) (token domain sec : String) (now : Int)
    (hne : token.length ≠ 0) (hdom : domain.length ≠ 0)
    (hfound : lookupSecret st domain = some sec) (hsecne : sec.length ≠ 0) :
    validate st token domain now = validateBytes st sec (b64decode token) now := by
  simp only [validate, hfound, if_neg hne, if_neg hdom, if_neg hsecne]

theorem validateBytes_unfold (st : LtpaState) (sec : String) (tok : List Nat) (now : Int)
    (hlen : 41 ≤ tok.length) :
    validateBytes st sec tok now =
      (if optGT ((parseIntHex (slice tok 4 12)).map (fun t => t - st.gracePeriod)) now then
        .error .notYetValid
      else if optLT (if st.strictExpirationValidation then parseIntHex (slice tok 12 20)
          else (parseIntHex (slice tok 4 12)).map
            (fun t => t + st.validity + st.gracePeriod * 2)) now then
        .error .expired
      else if hexString (slice tok 0 4) ≠ "00010203" then .error .badMagic
      else if hexString (sha1 (writeAt tok (tok.length - 20) ((b64decode sec).take 20))) ≠
          hexString (slice tok (tok.length - 20) tok.length) then .error .badSignature
      else .ok ()) := by
  simp only [validateBytes, if_neg (by omega : ¬tok.length < 41)]

/-- C1: Known-vector correctness of `generate`: with the secret table of
the test suite, username buffer `generateUserNameBuf "My Test User"` and
`timeStart = 1234567890`, `generate` returns exactly the three published
base64 tokens for (validity 5400, grace 300), (validity 5400, grace 0)
and (validity 10, grace 0), regardless of the ambient clock. -/
theorem known_vectors_generate : ∀ now : Int,
    generate defaultState (generateUserNameBuf "My Test User") "example.com"
        (some 1234567890) now =
      some "AAECAzQ5OTYwMWE2NDk5NjE5MTZNeSBUZXN0IFVzZXJjcHMKyXIrtD4SZcV7DKWd67EFng==" ∧
    generate (setGracePeriod defaultState 0) (generateUserNameBuf "My Test User") "example.com"
        (some 1234567890) now =
      some "AAECAzQ5OTYwMmQyNDk5NjE3ZWFNeSBUZXN0IFVzZXJ1HUi4fVHSeb8JgA2xsVK0kjromg==" ∧
    generate (setValidity (setGracePeriod defaultState 0) 10) (generateUserNameBuf "My Test User")
        "example.com" (some 1234567890) now =
      some "AAECAzQ5OTYwMmQyNDk5NjAyZGNNeSBUZXN0IFVzZXJs8zRFVehH/c9RpQ/KvUPhBM5tdQ==" := by
  intro now
  have hs : startOf (some 1234567890) now = 1234567890 := rfl
  refine ⟨?_, ?_, ?_⟩ <;> (simp only [generate, hs]; decide)

/-- C10: `validate` is observationally read-only with respect to the
module-level configuration: in its state-passing form it returns the
incoming state unchanged, for every input and every outcome, and its
result is exactly the pure `validate`. -/
theorem validate_state_readonly :
    ∀ (st : LtpaState) (token domain : String) (now : Int),
      (validateST st token domain now).2 = st ∧
      (validateST st token domain now).1 = validate st token domain now :=
  fun _ _ _ _ => ⟨rfl, rfl⟩

theorem b64EncChunks_ne_nil : ∀ bs : List Nat, bs ≠ [] → b64EncChunks bs ≠ []
  | [], h => absurd rfl h
  | [_], _ => by simp [b64EncChunks]
  | [_, _], _ => by simp [b64EncChunks]
  | _ :: _ :: _ :: _, _ => by simp [b64EncChunks]

/-- C9: `generate` does not enforce the username-length invariant: with a
registered domain and the empty username buffer it succeeds and returns
the base64 text of a 40-byte buffer, and `validate` — under any
configuration that still has a secret for the domain — rejects every such
token with the "too short" error (decoded length 40 < 41). -/
theorem generate_empty_username (st st2 : LtpaState) (domain sec sec2 : String)
    (timeStart : Option Int) (now now2 : Int)
    (hfound : lookupSecret st domain = some sec)
    (hfound2 : lookupSecret st2 domain = some sec2) (hsec2 : sec2.length ≠ 0)
    (hdom : domain.length ≠ 0) :
    generate st [] domain timeStart now =
        some (b64encode (generateCore st [] sec (startOf timeStart now))) ∧
    (generateCore st [] sec (startOf timeStart now)).length = 40 ∧
    (b64decode (b64encode (generateCore st [] sec (startOf timeStart now)))).length = 40 ∧
    validate st2 (b64encode (generateCore st [] sec (startOf timeStart now))) domain now2 =
      .error .tooShort := by
  have hlen : (generateCore st [] sec (startOf timeStart now)).length = 40 := by
    simpa using generateCore_length st [] sec (startOf timeStart now)
  have hbnd := generateCore_lt st [] sec (startOf timeStart now) (by simp)
  have hrt := b64_roundtrip _ hbnd
  have hne : (b64encode (generateCore st [] sec (startOf timeStart now))).length ≠ 0 := by
    have hnil : generateCore st [] sec (startOf timeStart now) ≠ [] := by
      intro hx
      rw [hx] at hlen
      simp at hlen
    have := b64EncChunks_ne_nil _ hnil
    simpa [b64encode, String.length, List.length_eq_zero] using this
  refine ⟨?_, hlen, ?_, ?_⟩
  · simp [generate, hfound]
  · rw [hrt, hlen]
  · rw [validate_eq st2 _ domain sec2 now2 hne hdom hfound2 hsec2, hrt]
    simp [validateBytes, hlen]

/-- Witness for C9 at a concrete configuration. -/
theorem generate_empty_username_witness :
    generate defaultState [] "example.com" (some 5) 0 =
        some (b64encode (generateCore defaultState [] "AAECAwQFBgcICQoLDA0ODxAREhM="
          (startOf (some 5) 0))) ∧
    (generateCore defaultState [] "AAECAwQFBgcICQoLDA0ODxAREhM=" (startOf (some 5) 0)).length
        = 40 ∧
    (b64decode (b64encode (generateCore defaultState [] "AAECAwQFBgcICQoLDA0ODxAREhM="
        (startOf (some 5) 0)))).length = 40 ∧
    validate defaultState (b64encode (generateCore defaultState []
        "AAECAwQFBgcICQoLDA0ODxAREhM=" (startOf (some 5) 0))) "example.com" 99 =
      .error .tooShort :=
  generate_empty_username defaultState defaultState "example.com"
    "AAECAwQFBgcICQoLDA0ODxAREhM=" "AAECAwQFBgcICQoLDA0ODxAREhM=" (some 5) 0 99
    (by decide) (by decide) (by decide) (by decide)

/-- C3: lenient-mode expiration boundary. With strict expiration off and
a token that reaches the time checks (nonempty texts, registered nonempty
secret, decoded length at least 41, creation field parsing as hex to
`tc`), `validate` fails with "Ltpa Token has expired" exactly when
`tc + validity + 2 * gracePeriod < now`; at equality the expiration
check passes, and at `now - 1` it fails. The ASCII hypothesis on bytes
4..12 records the scope on which the byte-level `parseIntHex` model is
exact. -/
theorem lenient_expiration_boundary (st : LtpaState) (token domain sec : String)
    (tok : List Nat) (now tc : Int)
    (hstrict : st.strictExpirationValidation = false)
    (hv : 0 ≤ st.validity) (hg : 0 ≤ st.gracePeriod)
    (hne : token.length ≠ 0) (hdom : domain.length ≠ 0)
    (hfound : lookupSecret st domain = some sec) (hsecne : sec.length ≠ 0)
    (htok : b64decode token = tok) (hlen : 41 ≤ tok.length)
    (hascii : ∀ b ∈ slice tok 4 12, b < 128)
    (htc : parseIntHex (slice tok 4 12) = some tc) :
    (validate st token domain now = .error .expired ↔
      tc + st.validity + 2 * st.gracePeriod < now) ∧
    (tc + st.validity + 2 * st.gracePeriod = now →
      validate st token domain now ≠ .error .expired) ∧
    (tc + st.validity + 2 * st.gracePeriod = now - 1 →
      validate st token domain now = .error .expired) := by
  have hval : validate st token domain now = validateBytes st sec tok now := by
    rw [validate_eq st token domain sec now hne hdom hfound hsecne, htok]
  rw [hval, validateBytes_unfold st sec tok now hlen, htc, hstrict]
  simp only [Option.map_some', optGT, optLT, Bool.false_eq_true, if_false, decide_eq_true_eq]
  by_cases hc : now < tc - st.gracePeriod
  · rw [if_pos hc]
    exact ⟨⟨fun h => absurd h (by decide), fun h => (by omega : False).elim⟩,
      fun _ => by decide, fun h => (by omega : False).elim⟩
  · rw [if_neg hc]
    by_cases he : tc + st.validity + st.gracePeriod * 2 < now
    · rw [if_pos he]
      exact ⟨⟨fun _ => by omega, fun _ => rfl⟩, fun h => (by omega : False).elim, fun _ => rfl⟩
    · rw [if_neg he]
      have hR : (if hexString (slice tok 0 4) ≠ "00010203" then
          (Except.error LtpaError.badMagic : Except LtpaError Unit)
        else if hexString (sha1 (writeAt tok (tok.length - 20) ((b64decode sec).take 20))) ≠
            hexString (slice tok (tok.length - 20) tok.length) then
          Except.error LtpaError.badSignature
        else Except.ok ()) ≠ Except.error LtpaError.expired := by
        split
        · decide
        · split
          · decide
          · decide
      exact ⟨⟨fun h => absurd h hR, fun h => (by omega : False).elim⟩,
        fun _ => hR, fun h => (by omega : False).elim⟩

/-- Witness for C3 at a concrete token and configuration. -/
theorem lenient_expiration_boundary_witness :
    (validate defaultState (b64encode tokBoundary) "example.com" 1234567890 =
        .error .expired ↔
      1234567590 + defaultState.validity + 2 * defaultState.gracePeriod < 1234567890) ∧
    (1234567590 + defaultState.validity + 2 * defaultState.gracePeriod = 1234567890 →
      validate defaultState (b64encode tokBoundary) "example.com" 1234567890 ≠
        .error .expired) ∧
    (1234567590 + defaultState.validity + 2 * defaultState.gracePeriod = 1234567890 - 1 →
      validate defaultState (b64encode tokBoundary) "example.com" 1234567890 =
        .error .expired) :=
  lenient_expiration_boundary defaultState (b64encode tokBoundary) "example.com"
    "AAECAwQFBgcICQoLDA0ODxAREhM=" tokBoundary 1234567890 1234567590
    (by decide) (by decide) (by decide) (by decide) (by decide) (by decide) (by decide)
    (by decide) (by decide) (by decide) (by decide)

/-- C4 (amended): strict-mode expiration uses the token's stored field.
With strict validation on, for a token that reaches the time checks and
whose creation-time check passes (the amendment: without it the
"not yet valid" error can precede), `validate` fails with "Ltpa Token
has expired" exactly when the stored `timeExpiration` (bytes 12..20 as
hex) is below `now`, ignoring validity and grace period. Moreover a
concrete token whose stored expiration has passed but whose lenient
window has not validates in lenient mode and fails in strict mode. -/
theorem strict_expiration_amended (st : LtpaState) (token domain sec : String)
    (tok : List Nat) (now te : Int)
    (hstrict : st.strictExpirationValidation = true)
    (hne : token.length ≠ 0) (hdom : domain.length ≠ 0)
    (hfound : lookupSecret st domain = some sec) (hsecne : sec.length ≠ 0)
    (htok : b64decode token = tok) (hlen : 41 ≤ tok.length)
    (hascii : ∀ b ∈ slice tok 12 20, b < 128)
    (hte : parseIntHex (slice tok 12 20) = some te)
    (hcre : optGT ((parseIntHex (slice tok 4 12)).map (fun t => t - st.gracePeriod)) now
      = false) :
    (validate st token domain now = .error .expired ↔ te < now) ∧
    validate defaultState (b64encode tokStrictDemo) "example.com" 1700000000 = .ok () ∧
    validate ⟨exampleSecrets, 5400, 300, true⟩ (b64encode tokStrictDemo) "example.com"
      1700000000 = .error .expired ∧
    parseIntHex (slice tokStrictDemo 12 20) = some 1699998500 ∧
    (1699998500 : Int) < 1700000000 ∧
    parseIntHex (slice tokStrictDemo 4 12) = some 1699994300 ∧
    ¬(1699994300 + 5400 + 2 * 300 < (1700000000 : Int)) := by
  have hval : validate st token domain now = validateBytes st sec tok now := by
    rw [validate_eq st token domain sec now hne hdom hfound hsecne, htok]
  refine ⟨?_, by decide, by decide, by decide, by decide, by decide, by decide⟩
  rw [hval, validateBytes_unfold st sec tok now hlen, hcre, hte, hstrict]
  simp only [optLT, Bool.false_eq_true, if_false, if_true, decide_eq_true_eq]
  by_cases hx : te < now
  · rw [if_pos hx]
    exact ⟨fun _ => hx, fun _ => rfl⟩
  · rw [if_neg hx]
    have hR : (if hexString (slice tok 0 4) ≠ "00010203" then
        (Except.error LtpaError.badMagic : Except LtpaError Unit)
      else if hexString (sha1 (writeAt tok (tok.length - 20) ((b64decode sec).take 20))) ≠
          hexString (slice tok (tok.length - 20) tok.length) then
        Except.error LtpaError.badSignature
      else Except.ok ()) ≠ Except.error LtpaError.expired := by
      split
      · decide
      · split
        · decide
        · decide
    exact ⟨fun h => absurd h hR, fun h => absurd h hx⟩

/-- Witness for the amended C4 at a concrete token and configuration. -/
theorem strict_expiration_amended_witness :
    (validate ⟨exampleSecrets, 5400, 300, true⟩ (b64encode tokBoundary) "example.com"
        1234567890 = .error .expired ↔ (1234573590 : Int) < 1234567890) ∧
    validate defaultState (b64encode tokStrictDemo) "example.com" 1700000000 = .ok () ∧
    validate ⟨exampleSecrets, 5400, 300, true⟩ (b64encode tokStrictDemo) "example.com"
      1700000000 = .error .expired ∧
    parseIntHex (slice tokStrictDemo 12 20) = some 1699998500 ∧
    (1699998500 : Int) < 1700000000 ∧
    parseIntHex (slice tokStrictDemo 4 12) = some 1699994300 ∧
    ¬(1699994300 + 5400 + 2 * 300 < (1700000000 : Int)) :=
  strict_expiration_amended ⟨exampleSecrets, 5400, 300, true⟩ (b64encode tokBoundary)
    "example.com" "AAECAwQFBgcICQoLDA0ODxAREhM=" tokBoundary 1234567890 1234573590
    (by decide) (by decide) (by decide) (by decide) (by decide) (by decide) (by decide)
    (by decide) (by decide) (by decide)

/-- Counterexample to C4 as stated: a token whose stored expiration (0)
has long passed still makes strict-mode `validate` fail with "not yet
valid" rather than "expired", because the creation-time check runs
first; so "fails with expired iff stored expiration < now" is false. -/
theorem strict_expiration_counterexample :
    parseIntHex (slice tokNotYet 12 20) = some 0 ∧ (0 : Int) < 1000 ∧
    validate ⟨exampleSecrets, 5400, 300, true⟩ (b64encode tokNotYet) "example.com" 1000 =
      .error .notYetValid ∧
    validate ⟨exampleSecrets, 5400, 300, true⟩ (b64encode tokNotYet) "example.com" 1000 ≠
      .error .expired := by
  refine ⟨by decide, by decide, by decide, by decide⟩

/-- C2: suffix-keyed signature construction. On the generate side, the
trailing 20 bytes of the produced buffer equal the SHA-1 of that buffer
with the 20 raw secret bytes spliced over its trailing 20 bytes, all
other bytes (magic, hex timestamps, username) unchanged. On the
validate side, for a token that reaches the hash check, `validate`
fails with the integrity error exactly when the stored trailing 20
bytes differ from that digest, and succeeds exactly when they agree. -/
theorem suffix_keyed_signature (st : LtpaState) (u : List Nat) (gsec : String) (start : Int)
    (token domain sec : String) (tok : List Nat) (now : Int)
    (hgsec : (b64decode gsec).length = 20)
    (h1 : (intToHex (start - st.gracePeriod)).length ≤ 8)
    (h2 : (intToHex (start + st.validity + st.gracePeriod)).length ≤ 8)
    (hne : token.length ≠ 0) (hdom : domain.length ≠ 0)
    (hfound : lookupSecret st domain = some sec) (hsecne : sec.length ≠ 0)
    (hsec20 : (b64decode sec).length = 20)
    (htok : b64decode token = tok) (hlen : 41 ≤ tok.length) (htokb : ∀ b ∈ tok, b < 256)
    (hcre : optGT ((parseIntHex (slice tok 4 12)).map (fun t => t - st.gracePeriod)) now
      = false)
    (hexp : optLT (if st.strictExpirationValidation then parseIntHex (slice tok 12 20)
        else (parseIntHex (slice tok 4 12)).map
          (fun t => t + st.validity + st.gracePeriod * 2)) now = false)
    (hmag : slice tok 0 4 = [0, 1, 2, 3]) :
    ((generateCore st u gsec start).drop ((generateCore st u gsec start).length - 20) =
      sha1 ((generateCore st u gsec start).take ((generateCore st u gsec start).length - 20)
        ++ b64decode gsec)) ∧
    ((generateCore st u gsec start).take ((generateCore st u gsec start).length - 20) =
      tokenHeader st start ++ u) ∧
    (validate st token domain now = .error .badSignature ↔
      tok.drop (tok.length - 20) ≠ sha1 (tok.take (tok.length - 20) ++ b64decode sec)) ∧
    (validate st token domain now = .ok () ↔
      tok.drop (tok.length - 20) = sha1 (tok.take (tok.length - 20) ++ b64decode sec)) := by
  have hT := generateCore_eq st u gsec start h1 h2
  have hsp : secretPad gsec = b64decode gsec := by
    simp [secretPad, List.take_of_length_le (le_of_eq hgsec), hgsec]
  rw [hsp] at hT
  have hTlen : (generateCore st u gsec start).length - 20 = (tokenHeader st start ++ u).length
      := by
    rw [hT]
    simp only [List.length_append, sha1_length]
    omega
  have htake : (generateCore st u gsec start).take
      ((generateCore st u gsec start).length - 20) = tokenHeader st start ++ u := by
    rw [hTlen, hT, List.take_left]
  have hdrop : (generateCore st u gsec start).drop
      ((generateCore st u gsec start).length - 20) =
      sha1 (tokenHeader st start ++ u ++ b64decode gsec) := by
    rw [hTlen, hT, List.drop_left]
  refine ⟨?_, htake, ?_⟩
  · rw [hdrop, htake]
  -- validate side
  have hval : validate st token domain now = validateBytes st sec tok now := by
    rw [validate_eq st token domain sec now hne hdom hfound hsecne, htok]
  have hmagic : ¬(hexString (slice tok 0 4) ≠ "00010203") := by
    rw [hmag]
    decide
  rw [hval, validateBytes_unfold st sec tok now hlen, hcre, hexp, if_neg hmagic]
  simp only [Bool.false_eq_true, if_false]
  have hsplice : writeAt tok (tok.length - 20) ((b64decode sec).take 20) =
      tok.take (tok.length - 20) ++ b64decode sec := by
    rw [List.take_of_length_le (le_of_eq hsec20),
      writeAt_suffix tok (tok.length - 20) (b64decode sec) (by omega)]
  have hstored : slice tok (tok.length - 20) tok.length = tok.drop (tok.length - 20) := by
    simp [slice, List.take_of_length_le]
  rw [hsplice, hstored]
  have hhex : hexString (sha1 (tok.take (tok.length - 20) ++ b64decode sec)) =
        hexString (tok.drop (tok.length - 20)) ↔
      sha1 (tok.take (tok.length - 20) ++ b64decode sec) = tok.drop (tok.length - 20) :=
    hexString_eq_iff (sha1_lt _) (fun b hb => htokb b (List.drop_subset _ _ hb))
  by_cases hE : sha1 (tok.take (tok.length - 20) ++ b64decode sec) =
      tok.drop (tok.length - 20)
  · rw [if_neg (by simpa [hhex] using hE)]
    constructor
    · constructor
      · intro h
        exact absurd h (by decide)
      · intro h
        exact absurd hE.symm h
    · exact ⟨fun _ => hE.symm, fun _ => rfl⟩
  · rw [if_pos (by simpa [hhex] using hE)]
    constructor
    · exact ⟨fun _ => fun hx => hE hx.symm, fun _ => rfl⟩
    · constructor
      · intro h
        exact absurd h (by decide)
      · intro h
        exact absurd h.symm hE

/-- Witness for C2 at a concrete configuration, username and token. -/
theorem suffix_keyed_signature_witness :
    ((generateCore defaultState userNameBufExample "AAECAwQFBgcICQoLDA0ODxAREhM="
        1234567890).drop
      ((generateCore defaultState userNameBufExample "AAECAwQFBgcICQoLDA0ODxAREhM="
        1234567890).length - 20) =
      sha1 ((generateCore defaultState userNameBufExample "AAECAwQFBgcICQoLDA0ODxAREhM="
          1234567890).take
        ((generateCore defaultState userNameBufExample "AAECAwQFBgcICQoLDA0ODxAREhM="
          1234567890).length - 20) ++ b64decode "AAECAwQFBgcICQoLDA0ODxAREhM=")) ∧
    ((generateCore defaultState userNameBufExample "AAECAwQFBgcICQoLDA0ODxAREhM="
        1234567890).take
      ((generateCore defaultState userNameBufExample "AAECAwQFBgcICQoLDA0ODxAREhM="
        1234567890).length - 20) =
      tokenHeader defaultState 1234567890 ++ userNameBufExample) ∧
    (validate defaultState (b64encode tokBoundary) "example.com" 1234567890 =
        .error .badSignature ↔
      tokBoundary.drop (tokBoundary.length - 20) ≠
        sha1 (tokBoundary.take (tokBoundary.length - 20) ++
          b64decode "AAECAwQFBgcICQoLDA0ODxAREhM=")) ∧
    (validate defaultState (b64encode tokBoundary) "example.com" 1234567890 = .ok () ↔
      tokBoundary.drop (tokBoundary.length - 20) =
        sha1 (tokBoundary.take (tokBoundary.length - 20) ++
          b64decode "AAECAwQFBgcICQoLDA0ODxAREhM=")) :=
  suffix_keyed_signature defaultState userNameBufExample "AAECAwQFBgcICQoLDA0ODxAREhM="
    1234567890 (b64encode tokBoundary) "example.com" "AAECAwQFBgcICQoLDA0ODxAREhM="
    tokBoundary 1234567890
    (by decide) (by decide) (by decide) (by decide) (by decide) (by decide) (by decide)
    (by decide) (by decide) (by decide) (by decide) (by decide) (by decide) (by decide)

/-- C5 (amended): username codec round trip. For every string whose
characters are each in the curated ibm852 list, or in the ibm850 table
and different from the escape character U+0006, decoding a token whose
username bytes are `generateUserNameBuf s` recovers `s`; the encoder
emits the escape byte 6 plus the ibm852 code for curated characters and
the single ibm850 code otherwise. (As stated over all table characters
the claim fails: U+0006 itself, and ibm852-table characters outside the
curated list and ibm850, break the round trip.) -/
theorem username_codec_roundtrip_amended (s : String)
    (h : ∀ c ∈ s.toList, usernameScope c)
    (pre post : List Nat) (hpre : pre.length = 20) (hpost : post.length = 20)
    (hpreb : ∀ b ∈ pre, b < 256) (hpostb : ∀ b ∈ post, b < 256) :
    getUserName (b64encode (pre ++ generateUserNameBuf s ++ post)) = s ∧
    generateUserNameBuf s = (s.toList.map encCharBytes).join ∧
    (∀ c, encCharBytes c =
      if ibm852Chars.contains c then [6, encode852 c] else [encode850 c]) := by
  refine ⟨?_, generateUserNameBuf_eq s, fun c => rfl⟩
  have hub := generateUserNameBuf_lt s
  have hb : ∀ b ∈ pre ++ generateUserNameBuf s ++ post, b < 256 := by
    intro b hb
    rcases List.mem_append.mp hb with hb | hb
    · rcases List.mem_append.mp hb with hb | hb
      · exact hpreb b hb
      · exact hub b hb
    · exact hpostb b hb
  have hrt := b64_roundtrip _ hb
  have hbuf := getUserNameBuf_of_decode hrt hpre hpost
  rw [getUserName, hbuf, username_roundtrip_core s h, mk_toList]

/-- Witness for the amended C5 on a small mixed string. -/
theorem username_codec_roundtrip_amended_witness :
    getUserName (b64encode (List.replicate 20 0 ++ generateUserNameBuf "Mž" ++
      List.replicate 20 0)) = "Mž" ∧
    generateUserNameBuf "Mž" = ((String.toList "Mž").map encCharBytes).join ∧
    (∀ c, encCharBytes c =
      if ibm852Chars.contains c then [6, encode852 c] else [encode850 c]) :=
  username_codec_roundtrip_amended "Mž" (by decide) (List.replicate 20 0)
    (List.replicate 20 0) (by decide) (by decide) (by decide) (by decide)

/-- Counterexample to C5 as stated: the escape character U+0006 is in
the ibm850 table, yet a token whose username bytes encode the one-char
string U+0006 decodes to the empty string, not back to it. -/
theorem username_codec_roundtrip_counterexample :
    Char.ofNat 6 ∈ cp850Table ∧
    getUserName (b64encode (List.replicate 20 0 ++
      generateUserNameBuf (String.mk [Char.ofNat 6]) ++ List.replicate 20 0)) = "" ∧
    getUserName (b64encode (List.replicate 20 0 ++
      generateUserNameBuf (String.mk [Char.ofNat 6]) ++ List.replicate 20 0)) ≠
      String.mk [Char.ofNat 6] := by
  refine ⟨by decide, by decide, by decide⟩

/-- C7 (amended): `generate` start-time selection. `start` equals a
provided nonzero `timeStart`; a provided zero is falsy in the source's
`timeStart ? timeStart : now`, so it behaves exactly like an absent
argument and selects the clock (this corrects the claim's
"including timeStart = 0"). The token is built with the hex text of
`start - gracePeriod` in bytes 4..12 and of
`start + validity + gracePeriod` in bytes 12..20. -/
theorem generate_start_amended (st : LtpaState) (u : List Nat) (domain sec : String)
    (t now : Int) (hfound : lookupSecret st domain = some sec) :
    (t ≠ 0 → generate st u domain (some t) now =
      some (b64encode (generateCore st u sec t))) ∧
    (generate st u domain (some 0) now = generate st u domain none now) ∧
    (generate st u domain none now = some (b64encode (generateCore st u sec now))) ∧
    (∀ start : Int,
      (intToHex (start - st.gracePeriod)).length ≤ 8 →
      (intToHex (start + st.validity + st.gracePeriod)).length ≤ 8 →
      slice (generateCore st u sec start) 4 12 =
        pad8 ((intToHex (start - st.gracePeriod)).map Char.toNat) ∧
      slice (generateCore st u sec start) 12 20 =
        pad8 ((intToHex (start + st.validity + st.gracePeriod)).map Char.toNat)) := by
  refine ⟨?_, ?_, ?_, ?_⟩
  · intro ht
    simp [generate, hfound, startOf, ht]
  · simp [generate, hfound, startOf]
  · simp [generate, hfound, startOf]
  · intro start hh1 hh2
    have hT := generateCore_eq st u sec start hh1 hh2
    have hp1 : (pad8 ((intToHex (start - st.gracePeriod)).map Char.toNat)).length = 8 := by
      simp only [pad8, List.length_append, List.length_replicate, List.length_map]
      omega
    have hp2 : (pad8 ((intToHex (start + st.validity + st.gracePeriod)).map
        Char.toNat)).length = 8 := by
      simp only [pad8, List.length_append, List.length_replicate, List.length_map]
      omega
    constructor
    · have hT4 : generateCore st u sec start =
          [0, 1, 2, 3] ++ pad8 ((intToHex (start - st.gracePeriod)).map Char.toNat) ++
            (pad8 ((intToHex (start + st.validity + st.gracePeriod)).map Char.toNat) ++
              (u ++ sha1 (tokenHeader st start ++ u ++ secretPad sec))) := by
        rw [hT]
        simp [tokenHeader, List.append_assoc]
      rw [hT4]
      exact slice_middle _ _ _ 4 12 (by simp) (by rw [hp1])
    · have hT12 : generateCore st u sec start =
          ([0, 1, 2, 3] ++ pad8 ((intToHex (start - st.gracePeriod)).map Char.toNat)) ++
            pad8 ((intToHex (start + st.validity + st.gracePeriod)).map Char.toNat) ++
            (u ++ sha1 (tokenHeader st start ++ u ++ secretPad sec)) := by
        rw [hT]
        simp [tokenHeader, List.append_assoc]
      rw [hT12]
      exact slice_middle _ _ _ 12 20 (by simp [hp1]) (by rw [hp2])

/-- Witness for the amended C7 at concrete times. -/
theorem generate_start_amended_witness :
    generate defaultState [77] "example.com" (some 77) 55 =
      some (b64encode (generateCore defaultState [77] "AAECAwQFBgcICQoLDA0ODxAREhM=" 77)) ∧
    generate defaultState [77] "example.com" (some 0) 55 =
      generate defaultState [77] "example.com" none 55 ∧
    generate defaultState [77] "example.com" none 55 =
      some (b64encode (generateCore defaultState [77] "AAECAwQFBgcICQoLDA0ODxAREhM=" 55)) ∧
    (slice (generateCore defaultState [77] "AAECAwQFBgcICQoLDA0ODxAREhM=" 77) 4 12 =
      pad8 ((intToHex (77 - defaultState.gracePeriod)).map Char.toNat) ∧
    slice (generateCore defaultState [77] "AAECAwQFBgcICQoLDA0ODxAREhM=" 77) 12 20 =
      pad8 ((intToHex (77 + defaultState.validity + defaultState.gracePeriod)).map
        Char.toNat)) :=
  have h := generate_start_amended defaultState [77] "example.com"
    "AAECAwQFBgcICQoLDA0ODxAREhM=" 77 55 (by decide)
  ⟨h.1 (by decide), h.2.1, h.2.2.1, h.2.2.2 77 (by decide) (by decide)⟩

/-- Counterexample to C7 as stated: with `timeStart = 0` the code takes
the clock, not 0 — the produced token equals the no-argument one and
differs from a token built with start 0. -/
theorem generate_start_counterexample :
    generate defaultState [77] "example.com" (some 0) 1000 =
      generate defaultState [77] "example.com" none 1000 ∧
    generate defaultState [77] "example.com" (some 0) 1000 ≠
      some (b64encode (generateCore defaultState [77] "AAECAwQFBgcICQoLDA0ODxAREhM=" 0)) := by
  refine ⟨by decide, by decide⟩

/-- C8 (amended): `getUserNameBuf` and `getUserName` are pure accessors:
for every input they return the decoded bytes 20 .. N-20 (decoded to
text for `getUserName`) with no time, version or signature validation
and no secret involved — their definitions take no configuration at
all. For decoded length below 41 they do NOT fail: the clamped slice is
empty, so they return the empty buffer / empty string (this corrects
the claim's "fail with the FormatError, exactly as parse does"). -/
theorem username_accessors_amended : ∀ token : String,
    getUserNameBuf token = slice (b64decode token) 20 ((b64decode token).length - 20) ∧
    getUserName token = String.mk (decodeUserName (getUserNameBuf token)) ∧
    ((b64decode token).length < 41 →
      getUserNameBuf token = [] ∧ getUserName token = "") := by
  intro token
  refine ⟨rfl, rfl, ?_⟩
  intro hlen
  have hbuf : getUserNameBuf token = [] := by
    simp only [getUserNameBuf, slice]
    apply List.drop_eq_nil_of_le
    rw [List.length_take]
    omega
  refine ⟨hbuf, ?_⟩
  rw [getUserName, hbuf]
  rfl

/-- Witness for the amended C8 at a short token. -/
theorem username_accessors_amended_witness :
    getUserNameBuf "AAAA" = slice (b64decode "AAAA") 20 ((b64decode "AAAA").length - 20) ∧
    getUserName "AAAA" = String.mk (decodeUserName (getUserNameBuf "AAAA")) ∧
    (getUserNameBuf "AAAA" = [] ∧ getUserName "AAAA" = "") :=
  have h := username_accessors_amended "AAAA"
  ⟨h.1, h.2.1, h.2.2 (by decide)⟩

/-- Counterexample to C8 as stated: on a token of decoded length 3 the
claimed behavior (the spec-reference parse) is the "too short" error,
but the code's accessors return the empty buffer and empty string
without failing. -/
theorem username_accessors_counterexample :
    (b64decode "AAAA").length < 41 ∧
    getUserNameBufSpec "AAAA" = .error .tooShort ∧
    getUserNameBuf "AAAA" = [] ∧ getUserName "AAAA" = "" := by
  refine ⟨by decide, by decide, by decide, by decide⟩

theorem validateBytes_eq_specChecks (st : LtpaState) (sec : String) (tok : List Nat)
    (now : Int) :
    validateBytes st sec tok now =
      (if tok.length < 41 then .error .tooShort
       else do
         specCheckCreation st tok now
         specCheckExpiration st tok now
         specCheckVersion tok
         specCheckSignature sec tok) := by
  by_cases h41 : tok.length < 41
  · simp [validateBytes, h41]
  · rw [validateBytes_unfold st sec tok now (by omega), if_neg h41]
    simp only [specCheckCreation, specCheckExpiration, specCheckVersion, specCheckSignature]
    by_cases hc : optGT ((parseIntHex (slice tok 4 12)).map (fun t => t - st.gracePeriod)) now
    · simp [hc, Bind.bind, Except.bind]
    · by_cases he : optLT (if st.strictExpirationValidation then parseIntHex (slice tok 12 20)
          else (parseIntHex (slice tok 4 12)).map
            (fun t => t + st.validity + st.gracePeriod * 2)) now
      · simp [hc, he, Bind.bind, Except.bind]
      · by_cases hm : hexString (slice tok 0 4) ≠ "00010203"
        · simp [hc, he, hm, Bind.bind, Except.bind]
        · by_cases hs : hexString (sha1 (writeAt tok (tok.length - 20)
              ((b64decode sec).take 20))) ≠
              hexString (slice tok (tok.length - 20) tok.length)
          · simp [hc, he, hm, hs, Bind.bind, Except.bind]
          · simp [hc, he, hm, hs, Bind.bind, Except.bind]

/-- C6: check order and error precedence of `validate`. For every
input, `validate` agrees with the spec-ordered cascade: empty-token
input error, then empty-domain input error, then the lookup error for a
missing (or empty) secret, then "too short" below 41 decoded bytes,
then the creation-time, expiration-time, version and signature checks
in exactly that order. In particular, a concrete token that is both
expired and signature-invalid is rejected with the expiration error,
never the integrity error. -/
theorem validate_check_order :
    (∀ (st : LtpaState) (token domain : String) (now : Int),
      validate st token domain now = validateSpecOrder st token domain now) ∧
    validate defaultState (b64encode tokExpiredForged) "example.com" 1234567890 =
      .error .expired ∧
    hexString (sha1 (writeAt tokExpiredForged (tokExpiredForged.length - 20)
        ((b64decode "AAECAwQFBgcICQoLDA0ODxAREhM=").take 20))) ≠
      hexString (slice tokExpiredForged (tokExpiredForged.length - 20)
        tokExpiredForged.length) := by
  refine ⟨?_, by decide, by decide⟩
  intro st token domain now
  simp only [validate, validateSpecOrder]
  by_cases h1 : token.length = 0
  · simp [h1]
  · by_cases h2 : domain.length = 0
    · simp [h1, h2]
    · cases hl : lookupSecret st domain with
      | none => simp [h1, h2, hl]
      | some sec =>
        by_cases h3 : sec.length = 0
        · simp [h1, h2, hl, h3]
        · simp [h1, h2, hl, h3, validateBytes_eq_specChecks]

end Ltpa
